import Mathlib

/-!
Verification development for the snapshot archiver of the rustic repository.

The definitions below are a shallow embedding of the Rust sources:
  src/archiver/archiver_impl.rs  (Archiver engine)
  src/commands/backup.rs         (backup command driver)
  src/backend/rest.rs            (REST backend error classification and retry)
  src/backend/local.rs           (local backend object layout)

Conventions of the embedding:
  - machine integers are Nat (sizes, counters) or Int (timestamps);
  - fallible Rust code returning anyhow Result is embedded as Except Err;
  - external collaborators that the engine only consumes through a contract
    (content hash, chunker, tree serialization, packer add, backend save)
    are passed in as function arguments;
  - paths are lists of Normal components (Path::starts_with on such paths
    is List.isPrefixOf, Path::pop is List.dropLast);
  - the progress bar is its position, a Nat;
  - submissions handed to the data and tree packers are recorded in lists
    so that theorems can talk about what was packed.
-/

namespace Rustic

/-- Blob identifier, source file src/id.rs (content hash value). The archiver
only compares ids for equality, so they are embedded as Nat. -/
abbrev Id := Nat

/-- Byte string (file chunk contents, serialized tree bytes). -/
abbrev Chunk := List Nat

/-- Metadata of a node. Only the size field is read by the archiver engine
(p_node.meta().size() in backup_file); mtime stands in for the remaining
fields that only the parent cursor inspects. -/
structure Metadata where
  size : Nat := 0
  mtime : Int := 0
deriving DecidableEq, Repr

/-- Kind of a directory entry, source enum NodeType. The engine only
distinguishes File, Dir and everything else. -/
inductive NodeKind where
  | file
  | dir
  | other
deriving DecidableEq, Repr

/-- Directory entry, source struct Node: name, kind, metadata, content chunk
ids (files) and subtree id (directories). -/
structure Node where
  name : String
  kind : NodeKind
  meta : Metadata
  content : List Id := []
  subtree : Option Id := none
deriving DecidableEq, Repr

/-- Source Node::set_content. -/
def Node.set_content (n : Node) (c : List Id) : Node := { n with content := c }

/-- Source Node::set_subtree. -/
def Node.set_subtree (n : Node) (i : Id) : Node := { n with subtree := some i }

/-- Result of Parent::is_parent, source enum ParentResult. -/
inductive ParentResult where
  | Matched (p_node : Node)
  | NotMatched
  | NotFound
deriving DecidableEq, Repr

/-- Parent cursor oracle. Modelled from the spec: archiver/parent.rs is not
among the sources; per spec section 4.4 the cursor decides Matched, NotMatched
or NotFound from the child's name, kind and metadata only (never from the
content list, which the engine overwrites). It is therefore embedded as a
function of exactly those fields. -/
abbrev ParentFn := String → NodeKind → Metadata → ParentResult

/-- Source Parent::is_parent applied to a node: the cursor inspects the
node's name, kind and metadata. -/
def is_parent (pf : ParentFn) (n : Node) : ParentResult :=
  pf n.name n.kind n.meta

/-- In-progress directory object, source struct Tree (ordered child list).
The blob module is not among the sources; per spec section 4.3 a Tree is an
ordered list of nodes (sort may happen at serialization), embedded as a list. -/
abbrev Tree := List Node

/-- Source Tree::new(). -/
def Tree.new : Tree := []

/-- Source Tree::add: insert a node into the tree (canonical order is imposed
at serialization, which is abstract here, so insertion position is
irrelevant to every claim; membership is what matters). -/
def Tree.add (t : Tree) (n : Node) : Tree := t ++ [n]

/-- Snapshot summary counters, source struct SnapshotSummary (repo module),
field set from spec section 6. Durations are in whole seconds here. -/
structure Summary where
  files_new : Nat := 0
  files_changed : Nat := 0
  files_unmodified : Nat := 0
  dirs_new : Nat := 0
  dirs_changed : Nat := 0
  dirs_unmodified : Nat := 0
  data_blobs : Nat := 0
  tree_blobs : Nat := 0
  data_added : Nat := 0
  data_added_packed : Nat := 0
  data_added_files : Nat := 0
  data_added_files_packed : Nat := 0
  data_added_trees : Nat := 0
  data_added_trees_packed : Nat := 0
  total_files_processed : Nat := 0
  total_dirs_processed : Nat := 0
  total_bytes_processed : Nat := 0
  total_dirsize_processed : Nat := 0
  backup_start : Int := 0
  backup_end : Int := 0
  backup_duration : Nat := 0
  total_duration : Nat := 0
deriving DecidableEq, Repr

/-- Errors surfaced by the embedded archiver (anyhow errors in the source). -/
inductive Err where
  | packer
  | stackEmpty
  | subtreeUnset
  | openFail
  | readFail
  | outOfRange
  | saveFail
  | finalizeFail
deriving DecidableEq, Repr

/-- Snapshot manifest, source struct SnapshotFile restricted to the fields
finalize_snapshot touches. -/
structure Snapshot where
  time : Int := 0
  tree : Id := 0
  summary : Option Summary := none
  id : Id := 0
deriving DecidableEq, Repr

/-- Mutable state of the Archiver (struct Archiver), minus the current path,
which is threaded explicitly through finish_trees. dataSub and treeSub record
the blobs handed to the data and tree packers. -/
structure ArchSt where
  tree : Tree
  parent : ParentFn
  stack : List (Node × Tree × ParentFn)
  summary : Summary
  progress : Nat
  dataSub : List (Chunk × Id)
  treeSub : List (Chunk × Id)

/-- Fresh archiver state (Archiver::new with a no-parent cursor). -/
def ArchSt.init : ArchSt :=
  { tree := Tree.new
    parent := fun _ _ _ => ParentResult.NotFound
    stack := []
    summary := {}
    progress := 0
    dataSub := []
    treeSub := [] }

/-- Source Archiver::add_file: classify the file against the parent cursor,
add it to the current tree, bump processed counters. -/
def add_file (st : ArchSt) (node : Node) (size : Nat) : ArchSt :=
  let s :=
    match is_parent st.parent node with
    | ParentResult.Matched _ =>
        { st.summary with files_unmodified := st.summary.files_unmodified + 1 }
    | ParentResult.NotMatched =>
        { st.summary with files_changed := st.summary.files_changed + 1 }
    | ParentResult.NotFound =>
        { st.summary with files_new := st.summary.files_new + 1 }
  { st with
      tree := Tree.add st.tree node
      summary :=
        { s with
            total_files_processed := s.total_files_processed + 1
            total_bytes_processed := s.total_bytes_processed + size } }

/-- Source Archiver::add_dir: add the directory node to the current tree and
bump the processed-directory counters. -/
def add_dir (st : ArchSt) (node : Node) (size : Nat) : ArchSt :=
  { st with
      tree := Tree.add st.tree node
      summary :=
        { st.summary with
            total_dirs_processed := st.summary.total_dirs_processed + 1
            total_dirsize_processed := st.summary.total_dirsize_processed + size } }

/-- Source Archiver::process_data_junk: if the blob id is unknown to the
index, hand it to the data packer (recorded in dataSub); a non-zero packed
size credits the data counters; the progress bar advances in every case. -/
def process_data_junk (hasData : Id → Bool) (padd : Chunk → Id → Except Err Nat)
    (st : ArchSt) (id : Id) (chunk : Chunk) (size : Nat) : Except Err ArchSt :=
  if !(hasData id) then
    match padd chunk id with
    | Except.error e => Except.error e
    | Except.ok packed_size =>
        let st1 := { st with dataSub := st.dataSub ++ [(chunk, id)] }
        let st2 :=
          if packed_size == 0 then st1
          else
            { st1 with
                summary :=
                  { st1.summary with
                      data_blobs := st1.summary.data_blobs + 1
                      data_added := st1.summary.data_added + size
                      data_added_packed := st1.summary.data_added_packed + packed_size
                      data_added_files := st1.summary.data_added_files + size
                      data_added_files_packed :=
                        st1.summary.data_added_files_packed + packed_size } }
        Except.ok { st2 with progress := st2.progress + size }
  else
    Except.ok { st with progress := st.progress + size }

/-- Loop body accumulator of Archiver::backup_reader: walk the chunker output
in emission order (the source hashes chunks through an order-preserving
parallel map, so the observable order is the stream order), hash each chunk,
append the id to the content list and run process_data_junk. -/
def backup_reader_go (hashFn : Chunk → Id) (hasData : Id → Bool)
    (padd : Chunk → Id → Except Err Nat) :
    List (Except Err Chunk) → ArchSt → List Id → Nat →
    Except Err (ArchSt × List Id × Nat)
  | [], st, content, filesize => Except.ok (st, content, filesize)
  | c :: rest, st, content, filesize =>
    match c with
    | Except.error e => Except.error e
    | Except.ok chunk =>
        let id := hashFn chunk
        let size := chunk.length
        match process_data_junk hasData padd st id chunk size with
        | Except.error e => Except.error e
        | Except.ok st1 =>
            backup_reader_go hashFn hasData padd rest st1
              (content ++ [id]) (filesize + size)

/-- Source Archiver::backup_reader: stream the chunker output, then attach
the accumulated content list to the node and add_file it with the total
streamed size. -/
def backup_reader (hashFn : Chunk → Id) (hasData : Id → Bool)
    (padd : Chunk → Id → Except Err Nat)
    (st : ArchSt) (chunks : List (Except Err Chunk)) (node : Node) :
    Except Err ArchSt :=
  match backup_reader_go hashFn hasData padd chunks st [] 0 with
  | Except.error e => Except.error e
  | Except.ok (st1, content, filesize) =>
      Except.ok (add_file st1 (node.set_content content) filesize)

/-- Source Archiver::backup_file: if the parent cursor matched and every id
of the parent's content is in the index, reuse the parent's content list
(size taken from the parent node's metadata) without touching the file;
otherwise open the real file (openResult, which may fail) and stream it
through backup_reader. -/
def backup_file (hashFn : Chunk → Id) (hasData : Id → Bool)
    (padd : Chunk → Id → Except Err Nat)
    (openResult : Except Err (List (Except Err Chunk)))
    (st : ArchSt) (node : Node) : Except Err ArchSt :=
  match is_parent st.parent node with
  | ParentResult.Matched p_node =>
    if p_node.content.all hasData then
      let size := p_node.meta.size
      let node1 := node.set_content p_node.content
      let st1 := add_file st node1 size
      Except.ok { st1 with progress := st1.progress + size }
    else
      -- missing blobs in index for unchanged file: warn and re-read
      match openResult with
      | Except.error e => Except.error e
      | Except.ok chunks => backup_reader hashFn hasData padd st chunks node
  | _ =>
      match openResult with
      | Except.error e => Except.error e
      | Except.ok chunks => backup_reader hashFn hasData padd st chunks node

/-- Packing half of Archiver::backup_tree (the code after the classification
match): if the tree id is unknown to the index, hand the serialized bytes to
the tree packer; a non-zero packed size credits the tree counters; finally
add_dir the node. -/
def backup_tree_pack (hasTree : Id → Bool) (paddTree : Chunk → Id → Except Err Nat)
    (st : ArchSt) (node : Node) (id : Id) (chunk : Chunk) (dirsize : Nat) :
    Except Err ArchSt :=
  if !(hasTree id) then
    match paddTree chunk id with
    | Except.error e => Except.error e
    | Except.ok packed_size =>
        let st1 := { st with treeSub := st.treeSub ++ [(chunk, id)] }
        let st2 :=
          if packed_size == 0 then st1
          else
            { st1 with
                summary :=
                  { st1.summary with
                      tree_blobs := st1.summary.tree_blobs + 1
                      data_added := st1.summary.data_added + dirsize
                      data_added_packed := st1.summary.data_added_packed + packed_size
                      data_added_trees := st1.summary.data_added_trees + dirsize
                      data_added_trees_packed :=
                        st1.summary.data_added_trees_packed + packed_size } }
        Except.ok (add_dir st2 node dirsize)
  else
    Except.ok (add_dir st node dirsize)

/-- Source Archiver::backup_tree. The node's subtree id was just set by
finish_trees; node.subtree().unwrap() of the source is the subtreeUnset
error case. A parent match with the same subtree id is the unchanged
directory fast path: add_dir, bump dirs_unmodified, return without packing.
NotFound is a new directory, everything else a changed one; both continue
into backup_tree_pack. -/
def backup_tree (hasTree : Id → Bool) (paddTree : Chunk → Id → Except Err Nat)
    (st : ArchSt) (node : Node) (chunk : Chunk) : Except Err ArchSt :=
  let dirsize := chunk.length
  match node.subtree with
  | none => Except.error Err.subtreeUnset
  | some id =>
    match is_parent st.parent node with
    | ParentResult.Matched p_node =>
      if node.subtree = p_node.subtree then
        let st1 := add_dir st node dirsize
        Except.ok
          { st1 with
              summary :=
                { st1.summary with
                    dirs_unmodified := st1.summary.dirs_unmodified + 1 } }
      else
        let st1 :=
          { st with
              summary := { st.summary with dirs_changed := st.summary.dirs_changed + 1 } }
        backup_tree_pack hasTree paddTree st1 node id chunk dirsize
    | ParentResult.NotMatched =>
        let st1 :=
          { st with
              summary := { st.summary with dirs_changed := st.summary.dirs_changed + 1 } }
        backup_tree_pack hasTree paddTree st1 node id chunk dirsize
    | ParentResult.NotFound =>
        let st1 :=
          { st with
              summary := { st.summary with dirs_new := st.summary.dirs_new + 1 } }
        backup_tree_pack hasTree paddTree st1 node id chunk dirsize

/-- Source Archiver::finish_trees: while the target path does not start with
the current path, serialize the current tree, pop a stack frame (error
stackEmpty when none is left, the source's tree stack empty anyhow error),
set the popped node's subtree to the serialized id, restore the outer tree
and parent cursor, backup_tree the node, and drop the last path component. -/
def finish_trees (serializeFn : Tree → Chunk × Id) (hasTree : Id → Bool)
    (paddTree : Chunk → Id → Except Err Nat) (base : List String) :
    List String → ArchSt → Except Err (List String × ArchSt)
  | path, st =>
    if h : path.isPrefixOf base then Except.ok (path, st)
    else
      match st.stack with
      | [] => Except.error Err.stackEmpty
      | (node, tree, parent) :: rest =>
        let ci := serializeFn st.tree
        let node1 := node.set_subtree ci.2
        let st1 := { st with tree := tree, parent := parent, stack := rest }
        match backup_tree hasTree paddTree st1 node1 ci.1 with
        | Except.error e => Except.error e
        | Except.ok st2 =>
            finish_trees serializeFn hasTree paddTree base path.dropLast st2
termination_by path => path.length
decreasing_by
  cases path with
  | nil => simp [List.isPrefixOf] at h
  | cons a l => simp [List.length_dropLast]

/-- Semantics of chrono Duration::to_std used by finalize_snapshot: the
conversion to a std Duration fails exactly when the signed duration is
negative (OutOfRangeError), else yields the value. Durations are whole
seconds here. -/
def durationToStd (d : Int) : Except Err Nat :=
  if d < 0 then Except.error Err.outOfRange else Except.ok d.toNat

/-- Root-tree submission step of Archiver::finalize_snapshot (lines 299-302):
serialize the remaining root tree and, if its id is unknown to the tree
index, hand it to the tree packer; the packed size is ignored and no summary
counter is touched. -/
def finalize_root_tree (serializeFn : Tree → Chunk × Id) (hasTree : Id → Bool)
    (paddTree : Chunk → Id → Except Err Nat) (st : ArchSt) :
    Except Err (ArchSt × Id) :=
  let ci := serializeFn st.tree
  if !(hasTree ci.2) then
    match paddTree ci.1 ci.2 with
    | Except.error e => Except.error e
    | Except.ok _ =>
        Except.ok ({ st with treeSub := st.treeSub ++ [(ci.1, ci.2)] }, ci.2)
  else Except.ok (st, ci.2)

/-- Source Archiver::finalize_snapshot: drain the stack against the sentinel
root path (the empty component list), submit the root tree, finalize the data
packer, the tree packer and the indexer (their outcomes are the finData,
finTree, finIndexer arguments), convert the two durations via to_std — which
fails on a negative difference — stamp the summary, save the manifest through
the backend (saveFile) and stamp the returned id. -/
def finalize_snapshot (serializeFn : Tree → Chunk × Id) (hasTree : Id → Bool)
    (paddTree : Chunk → Id → Except Err Nat)
    (finData finTree finIndexer : Except Err Unit)
    (saveFile : Snapshot → Except Err Id) (endTime : Int)
    (path : List String) (st : ArchSt) (snap : Snapshot) : Except Err Snapshot :=
  match finish_trees serializeFn hasTree paddTree [] path st with
  | Except.error e => Except.error e
  | Except.ok pst =>
    match finalize_root_tree serializeFn hasTree paddTree pst.2 with
    | Except.error e => Except.error e
    | Except.ok rooted =>
      let snap1 := { snap with tree := rooted.2 }
      match finData with
      | Except.error e => Except.error e
      | Except.ok _ =>
        match finTree with
        | Except.error e => Except.error e
        | Except.ok _ =>
          match finIndexer with
          | Except.error e => Except.error e
          | Except.ok _ =>
            match durationToStd (endTime - rooted.1.summary.backup_start) with
            | Except.error e => Except.error e
            | Except.ok bd =>
              match durationToStd (endTime - snap1.time) with
              | Except.error e => Except.error e
              | Except.ok td =>
                let summary :=
                  { rooted.1.summary with
                      backup_duration := bd
                      total_duration := td
                      backup_end := endTime }
                let snap2 := { snap1 with summary := some summary }
                match saveFile snap2 with
                | Except.error e => Except.error e
                | Except.ok sid => Except.ok { snap2 with id := sid }

/-- Entry loop of commands/backup.rs execute (lines 248-266): every entry is
handed to the archiver and an Err coming back is logged and ignored — the
loop continues with the archiver unchanged in this model — mirroring
`if let Err(e) = archiver.add_entry(..) { warn!("ignoring error {} ..") }`. -/
def backup_source_loop (entries : List (ArchSt → Except Err ArchSt)) (st : ArchSt) :
    ArchSt :=
  entries.foldl
    (fun st f =>
      match f st with
      | Except.ok st1 => st1
      | Except.error _ => st)
    st

/-- Tail of commands/backup.rs execute for one source: run the entry loop,
then `archiver.finalize_snapshot()?` — only a finalize failure aborts; a
returned snapshot means the manifest was saved. -/
def execute_backup (entries : List (ArchSt → Except Err ArchSt))
    (finalize : ArchSt → Except Err Snapshot) (st : ArchSt) : Except Err Snapshot :=
  finalize (backup_source_loop entries st)

/-! REST backend, src/backend/rest.rs. -/

/-- Classification of a retried operation's failure, the backoff crate's
Error type: permanent failures abort immediately, transient ones are
retried. The payload is the HTTP status code. -/
inductive RetryErr where
  | permanent (status : Nat)
  | transient (status : Nat)
deriving DecidableEq, Repr

/-- Client-error range of HTTP statuses (reqwest StatusCode::is_client_error). -/
def is_client_error (status : Nat) : Bool := 400 ≤ status && status ≤ 499

/-- Server-error range of HTTP statuses (reqwest StatusCode::is_server_error). -/
def is_server_error (status : Nat) : Bool := 500 ≤ status && status ≤ 599

/-- Semantics of reqwest Response::error_for_status: fail exactly on client
and server error statuses, carrying the status. -/
def error_for_status (status : Nat) : Except Nat Nat :=
  if is_client_error status || is_server_error status then Except.error status
  else Except.ok status

/-- Source CheckError::check_error (rest.rs lines 20-32): an error response
with a client-error (4xx) status is permanent; every other error response is
transient. -/
def check_error (status : Nat) : Except RetryErr Nat :=
  match error_for_status status with
  | Except.ok t => Except.ok t
  | Except.error err =>
      if is_client_error err then Except.error (RetryErr.permanent err)
      else Except.error (RetryErr.transient err)

/-- Semantics of backoff::retry_notify: run the operation (attempt number is
passed so distinct attempts can behave differently); a permanent error is
returned at once, a transient error consumes the next backoff interval and
retries, and an exhausted backoff (next_backoff = None, the list empty)
gives up with the last transient error. -/
def retry_notify (op : Nat → Except RetryErr α) :
    Nat → List Nat → Except Nat α
  | attempt, waits =>
    match op attempt with
    | Except.ok a => Except.ok a
    | Except.error (RetryErr.permanent e) => Except.error e
    | Except.error (RetryErr.transient e) =>
      match waits with
      | [] => Except.error e
      | _ :: rest => retry_notify op (attempt + 1) rest

/-- Default maximum elapsed time of the exponential backoff installed by
RestBackend::new (rest.rs line 76), in seconds. -/
def rest_backend_default_max_elapsed_secs : Nat := 600

/-! Local backend, src/backend/local.rs. -/

/-- Repository object kinds, source enum FileType. Modelled from the spec:
the backend module defining FileType is not among the sources; spec section 6
lists Config, Pack, Index, Snapshot, Key. -/
inductive FileType where
  | config
  | pack
  | index
  | snapshot
  | key
deriving DecidableEq, Repr

/-- Source FileType::name. Modelled from the spec: pack objects live under
"data" (local.rs create and path both use "data" for packs); the other kinds
use a directory named for the kind. -/
def FileType.name : FileType → String
  | FileType.config => "config"
  | FileType.pack => "data"
  | FileType.index => "index"
  | FileType.snapshot => "snapshots"
  | FileType.key => "keys"

/-- Source ALL_FILE_TYPES. Modelled from the spec: the list of file types of
spec section 6. -/
def ALL_FILE_TYPES : List FileType :=
  [FileType.config, FileType.index, FileType.snapshot, FileType.key, FileType.pack]

/-- Hex digit of a value below 16: Nat.digitChar yields the decimal digits
and then the lowercase letters a-f, matching the hex crate's lowercase
encoding. -/
def hexDigit (n : Nat) : Char := Nat.digitChar n

/-- The sixteen lowercase hexadecimal digits. -/
def hexDigitChars : List Char := (List.range 16).map hexDigit

/-- Two lowercase hex characters of one byte (hex::encode of a single byte). -/
def byteHex (b : Nat) : List Char := [hexDigit (b / 16), hexDigit (b % 16)]

/-- Source Id::to_hex. Modelled from the spec: src/id.rs is not among the
sources; per spec section 3 an id is rendered as lowercase hex, two digits
per byte. Ids are byte lists here. -/
def idToHexChars (id : List Nat) : List Char := id.flatMap byteHex

/-- Source LocalBackend::path (local.rs lines 30-38): config lives at
base/config, a pack at base/data/(first two hex chars)/(full hex id), and
every other type at base/(type dir)/(hex id). Paths are component lists. -/
def localBackendPath (base : List String) (tpe : FileType) (id : List Nat) :
    List String :=
  let hex_id := idToHexChars id
  match tpe with
  | FileType.config => base ++ ["config"]
  | FileType.pack =>
      base ++ ["data", String.mk (hex_id.take 2), String.mk hex_id]
  | _ => base ++ [tpe.name, String.mk hex_id]

/-- Source WriteBackend::create for LocalBackend (local.rs lines 126-134):
the list of directories created — one per file type, then the 256 two-hex
shard directories under data. -/
def localBackendCreate (base : List String) : List (List String) :=
  ALL_FILE_TYPES.map (fun tpe => base ++ [tpe.name]) ++
    (List.range 256).map (fun i => base ++ ["data", String.mk (byteHex i)])

/-! Operation sequences over the archiver, for the summary invariants. -/

/-- One externally triggerable archiver operation together with the oracle
answers (index contents, packer results, chunker output) it consumes. -/
inductive ArchOp where
  | fileAdd (node : Node) (size : Nat)
  | dirAdd (node : Node) (size : Nat)
  | junk (hasData : Id → Bool) (padd : Chunk → Id → Except Err Nat)
      (id : Id) (chunk : Chunk) (size : Nat)
  | treeBk (hasTree : Id → Bool) (paddTree : Chunk → Id → Except Err Nat)
      (node : Node) (chunk : Chunk)
  | readerBk (hashFn : Chunk → Id) (hasData : Id → Bool)
      (padd : Chunk → Id → Except Err Nat)
      (chunks : List (Except Err Chunk)) (node : Node)
  | fileBk (hashFn : Chunk → Id) (hasData : Id → Bool)
      (padd : Chunk → Id → Except Err Nat)
      (openResult : Except Err (List (Except Err Chunk))) (node : Node)
  | finishT (serializeFn : Tree → Chunk × Id) (hasTree : Id → Bool)
      (paddTree : Chunk → Id → Except Err Nat)
      (base : List String) (path : List String)
  | rootFin (serializeFn : Tree → Chunk × Id) (hasTree : Id → Bool)
      (paddTree : Chunk → Id → Except Err Nat)

/-- Effect of one archiver operation on the state. -/
def ArchOp.apply (st : ArchSt) : ArchOp → Except Err ArchSt
  | ArchOp.fileAdd node size => Except.ok (add_file st node size)
  | ArchOp.dirAdd node size => Except.ok (add_dir st node size)
  | ArchOp.junk hasData padd id chunk size =>
      process_data_junk hasData padd st id chunk size
  | ArchOp.treeBk hasTree paddTree node chunk =>
      backup_tree hasTree paddTree st node chunk
  | ArchOp.readerBk hashFn hasData padd chunks node =>
      backup_reader hashFn hasData padd st chunks node
  | ArchOp.fileBk hashFn hasData padd openResult node =>
      backup_file hashFn hasData padd openResult st node
  | ArchOp.finishT serializeFn hasTree paddTree base path =>
      match finish_trees serializeFn hasTree paddTree base path st with
      | Except.error e => Except.error e
      | Except.ok pst => Except.ok pst.2
  | ArchOp.rootFin serializeFn hasTree paddTree =>
      match finalize_root_tree serializeFn hasTree paddTree st with
      | Except.error e => Except.error e
      | Except.ok sti => Except.ok sti.1

/-- Run a sequence of archiver operations, stopping at the first error. -/
def runOps : List ArchOp → ArchSt → Except Err ArchSt
  | [], st => Except.ok st
  | op :: rest, st =>
    match op.apply st with
    | Except.error e => Except.error e
    | Except.ok st1 => runOps rest st1

/-- Summary invariant of claim C9: raw and packed added bytes split exactly
into the file and tree components. -/
def addedInv (s : Summary) : Prop :=
  s.data_added = s.data_added_files + s.data_added_trees ∧
    s.data_added_packed = s.data_added_files_packed + s.data_added_trees_packed

instance (s : Summary) : Decidable (addedInv s) := by
  unfold addedInv
  infer_instance

/-! Concrete fixtures used by witnesses and counterexamples. -/

/-- A file node of size 6, like a.txt of spec scenario 1. -/
def nodeA : Node := { name := "a.txt", kind := NodeKind.file, meta := { size := 6 } }

/-- A parent-snapshot file node with content [11, 12] and recorded size 5. -/
def pnodeA : Node :=
  { name := "a.txt", kind := NodeKind.file, meta := { size := 5 }, content := [11, 12] }

/-- A directory node whose subtree id has been set to 5. -/
def nodeD : Node := { name := "d", kind := NodeKind.dir, meta := {}, subtree := some 5 }

/-- The matching parent directory node with the same subtree id. -/
def pnodeD : Node := { name := "d", kind := NodeKind.dir, meta := {}, subtree := some 5 }

/-- Parent cursor that matches every file against pnodeA. -/
def parentA : ParentFn := fun _ _ _ => ParentResult.Matched pnodeA

/-- Parent cursor that matches every directory against pnodeD. -/
def parentD : ParentFn := fun _ _ _ => ParentResult.Matched pnodeD

/-- Archiver state whose cursor matches pnodeA. -/
def stA : ArchSt := { ArchSt.init with parent := parentA }

/-- Archiver state whose cursor matches pnodeD. -/
def stD : ArchSt := { ArchSt.init with parent := parentD }

/-- Data packer that always fails, for the claim C1 counterexample. -/
def paddFail : Chunk → Id → Except Err Nat := fun _ _ => Except.error Err.packer

/-- One backup.rs loop entry: a changed three-byte file whose chunk must be
packed, processed through backup_file. -/
def c1_entry : ArchSt → Except Err ArchSt :=
  fun st =>
    backup_file (fun c => c.length) (fun _ => false) paddFail
      (Except.ok [Except.ok [1, 2, 3]]) st nodeA

/-- The finalize_snapshot call of the claim C1 counterexample run: every
external collaborator succeeds, the clock moved forward. -/
def c1_finalize : ArchSt → Except Err Snapshot :=
  fun st =>
    finalize_snapshot (fun _ => ([], 9)) (fun _ => true) (fun _ _ => Except.ok 1)
      (Except.ok ()) (Except.ok ()) (Except.ok ()) (fun _ => Except.ok 42) 10
      [] st {}

end Rustic

namespace Rustic

/-! Helper lemmas shared by the claim theorems. -/

theorem add_file_tree (st : ArchSt) (node : Node) (size : Nat) :
    (add_file st node size).tree = Tree.add st.tree node := by
  simp only [add_file]

theorem add_file_dataSub (st : ArchSt) (node : Node) (size : Nat) :
    (add_file st node size).dataSub = st.dataSub := by
  simp only [add_file]

theorem add_file_stack (st : ArchSt) (node : Node) (size : Nat) :
    (add_file st node size).stack = st.stack := by
  simp only [add_file]

theorem process_data_junk_ok (hasData : Id → Bool) (g : Chunk → Id → Nat)
    (st : ArchSt) (id : Id) (chunk : Chunk) (size : Nat) :
    ∃ st1,
      process_data_junk hasData (fun c i => Except.ok (g c i)) st id chunk size =
          Except.ok st1 ∧
        st1.tree = st.tree ∧ st1.stack = st.stack ∧ st1.parent = st.parent ∧
        st1.treeSub = st.treeSub ∧
        st1.dataSub = st.dataSub ++ (if hasData id then [] else [(chunk, id)]) := by
  unfold process_data_junk
  by_cases h : hasData id
  · simp [h]
  · simp only [h, Bool.not_false, if_true, if_neg]
    by_cases hz : g chunk id == 0 <;> simp [h, hz]

theorem backup_reader_go_spec (hashFn : Chunk → Id) (hasData : Id → Bool)
    (g : Chunk → Id → Nat) (cs : List Chunk) :
    ∀ (st : ArchSt) (content : List Id) (filesize : Nat),
      ∃ st1 fs,
        backup_reader_go hashFn hasData (fun c i => Except.ok (g c i))
            (cs.map Except.ok) st content filesize =
          Except.ok (st1, content ++ cs.map hashFn, fs) ∧
        st1.tree = st.tree ∧ st1.stack = st.stack ∧ st1.parent = st.parent ∧
        st1.treeSub = st.treeSub ∧
        st1.dataSub = st.dataSub ++
          (cs.filter (fun c => !(hasData (hashFn c)))).map (fun c => (c, hashFn c)) := by
  induction cs with
  | nil => intro st content filesize; exact ⟨st, filesize, by simp [backup_reader_go]⟩
  | cons c rest ih =>
    intro st content filesize
    obtain ⟨stj, hj, hjtree, hjstack, hjparent, hjtreeSub, hjdataSub⟩ :=
      process_data_junk_ok hasData g st (hashFn c) c c.length
    obtain ⟨st1, fs, hgo, htree, hstack, hparent, htreeSub, hdataSub⟩ :=
      ih stj (content ++ [hashFn c]) (filesize + c.length)
    refine ⟨st1, fs, ?_, ?_, ?_, ?_, ?_, ?_⟩
    · simp only [List.map_cons, backup_reader_go, hj, hgo, List.append_assoc,
        List.singleton_append]
    · rw [htree, hjtree]
    · rw [hstack, hjstack]
    · rw [hparent, hjparent]
    · rw [htreeSub, hjtreeSub]
    · rw [hdataSub, hjdataSub]
      by_cases h : hasData (hashFn c) <;> simp [h]

/-- Claim C5: for every reader whose chunker stream and packer calls succeed,
backup_reader attaches to the node — and adds to the current tree — a content
list that is exactly the chunk ids in the chunker's emission order, and the
chunks handed to the data packer are exactly those whose id the index does
not already hold, in the same order. -/
theorem backup_reader_content_order_and_submissions (hashFn : Chunk → Id)
    (hasData : Id → Bool) (g : Chunk → Id → Nat) (st : ArchSt) (cs : List Chunk)
    (node : Node) :
    (backup_reader hashFn hasData (fun c i => Except.ok (g c i)) st
          (cs.map Except.ok) node).map (fun s => (s.tree, s.dataSub)) =
      Except.ok
        (Tree.add st.tree (node.set_content (cs.map hashFn)),
          st.dataSub ++
            (cs.filter (fun c => !(hasData (hashFn c)))).map
              (fun c => (c, hashFn c))) := by
  obtain ⟨st1, fs, hgo, htree, hstack, hparent, htreeSub, hdataSub⟩ :=
    backup_reader_go_spec hashFn hasData g cs st [] 0
  simp only [backup_reader, List.nil_append] at hgo ⊢
  rw [hgo]
  simp [Except.map, add_file_tree, add_file_dataSub, htree, hdataSub]

/-- Claim C3: backup_file reuses the parent's content exactly when the cursor
matched and every parent content id is in the index — setting the parent's
content on the node, adding it to the tree, classifying it unmodified,
advancing progress and processed bytes by the parent's recorded size, all
independently of the file contents (openResult is not consulted) — and in
every other case it opens the real file and streams it through
backup_reader. -/
theorem backup_file_reuse_iff (hashFn : Chunk → Id) (hasData : Id → Bool)
    (padd : Chunk → Id → Except Err Nat)
    (openResult : Except Err (List (Except Err Chunk)))
    (st : ArchSt) (node : Node) :
    (∀ p_node, is_parent st.parent node = ParentResult.Matched p_node →
        p_node.content.all hasData = true →
        backup_file hashFn hasData padd openResult st node =
          Except.ok
            { st with
                tree := Tree.add st.tree (node.set_content p_node.content)
                summary :=
                  { st.summary with
                      files_unmodified := st.summary.files_unmodified + 1
                      total_files_processed := st.summary.total_files_processed + 1
                      total_bytes_processed :=
                        st.summary.total_bytes_processed + p_node.meta.size }
                progress := st.progress + p_node.meta.size }) ∧
    (∀ p_node, is_parent st.parent node = ParentResult.Matched p_node →
        p_node.content.all hasData = false →
        backup_file hashFn hasData padd openResult st node =
          openResult.bind (fun chunks => backup_reader hashFn hasData padd st chunks node)) ∧
    ((is_parent st.parent node = ParentResult.NotMatched ∨
        is_parent st.parent node = ParentResult.NotFound) →
      backup_file hashFn hasData padd openResult st node =
        openResult.bind (fun chunks => backup_reader hashFn hasData padd st chunks node)) := by
  refine ⟨?_, ?_, ?_⟩
  · intro p_node hp hall
    have hp2 : is_parent st.parent (node.set_content p_node.content) =
        ParentResult.Matched p_node := hp
    simp only [backup_file, hp, hall, if_true]
    simp [add_file, hp2]
  · intro p_node hp hall
    simp only [backup_file, hp, hall]
    cases openResult <;> simp [Except.bind]
  · intro hcase
    rcases hcase with hp | hp <;>
      · simp only [backup_file, hp]
        cases openResult <;> simp [Except.bind]

/-- Witness for claim C3 at a concrete matched file with its blobs indexed. -/
theorem backup_file_reuse_iff_witness :
    backup_file (fun c => c.length) (fun _ => true) paddFail
        (Except.error Err.openFail) stA nodeA =
      Except.ok
        { stA with
            tree := Tree.add stA.tree (nodeA.set_content pnodeA.content)
            summary :=
              { stA.summary with
                  files_unmodified := stA.summary.files_unmodified + 1
                  total_files_processed := stA.summary.total_files_processed + 1
                  total_bytes_processed :=
                    stA.summary.total_bytes_processed + pnodeA.meta.size }
            progress := stA.progress + pnodeA.meta.size } :=
  (backup_file_reuse_iff (fun c => c.length) (fun _ => true) paddFail
      (Except.error Err.openFail) stA nodeA).1 pnodeA rfl rfl

/-- Claim C10: when backup_file reuses a matched parent's content, the
processed-bytes counter and the progress bar advance by the size recorded in
the parent node's metadata (whatever size the incoming node carries). -/
theorem backup_file_reuse_progress_uses_parent_size (hashFn : Chunk → Id)
    (hasData : Id → Bool) (padd : Chunk → Id → Except Err Nat)
    (openResult : Except Err (List (Except Err Chunk)))
    (st : ArchSt) (node : Node) (p_node : Node)
    (hp : is_parent st.parent node = ParentResult.Matched p_node)
    (hall : p_node.content.all hasData = true) :
    (backup_file hashFn hasData padd openResult st node).map
        (fun s => (s.summary.total_bytes_processed, s.progress)) =
      Except.ok
        (st.summary.total_bytes_processed + p_node.meta.size,
          st.progress + p_node.meta.size) := by
  have hp2 : is_parent st.parent (node.set_content p_node.content) =
      ParentResult.Matched p_node := hp
  simp only [backup_file, hp, hall, if_true]
  simp [add_file, hp2, Except.map]

/-- Witness for claim C10: the incoming node records size 6 but the parent
node records size 5; counters advance by 5. -/
theorem backup_file_reuse_progress_uses_parent_size_witness :
    (backup_file (fun c => c.length) (fun _ => true) paddFail
          (Except.error Err.openFail) stA nodeA).map
        (fun s => (s.summary.total_bytes_processed, s.progress)) =
      Except.ok
        (stA.summary.total_bytes_processed + pnodeA.meta.size,
          stA.progress + pnodeA.meta.size) :=
  backup_file_reuse_progress_uses_parent_size (fun c => c.length) (fun _ => true)
    paddFail (Except.error Err.openFail) stA nodeA pnodeA rfl rfl

/-- Counterexample to claim C4 as stated: in the unchanged-directory branch
the summary does not change by dirs_unmodified alone — at this concrete input
total_dirs_processed and total_dirsize_processed also change (add_dir runs on
every directory), refuting the parenthetical of the claim. -/
theorem backup_tree_unchanged_dir_changes_more_counters :
    (backup_tree (fun _ => true) (fun _ _ => Except.ok 1) stD nodeD
          [7, 7, 7]).map (fun s => s.summary) =
        Except.ok
          { stD.summary with
              dirs_unmodified := stD.summary.dirs_unmodified + 1
              total_dirs_processed := stD.summary.total_dirs_processed + 1
              total_dirsize_processed := stD.summary.total_dirsize_processed + 3 } ∧
      { stD.summary with
          dirs_unmodified := stD.summary.dirs_unmodified + 1
          total_dirs_processed := stD.summary.total_dirs_processed + 1
          total_dirsize_processed := stD.summary.total_dirsize_processed + 3 } ≠
        { stD.summary with dirs_unmodified := stD.summary.dirs_unmodified + 1 } := by
  constructor
  · rfl
  · decide

/-- Claim C4 as amended: in backup_tree, when the cursor matched and the
just-serialized subtree id equals the parent's, the directory node is added
to the enclosing tree, dirs_unmodified is incremented, nothing is handed to
the tree packer, and — beyond the total_dirs_processed and
total_dirsize_processed bumps that add_dir performs for every directory — no
other summary counter or state component changes. -/
theorem backup_tree_unchanged_dir (hasTree : Id → Bool)
    (paddTree : Chunk → Id → Except Err Nat) (st : ArchSt) (node : Node)
    (chunk : Chunk) (p_node : Node) (i : Id)
    (hp : is_parent st.parent node = ParentResult.Matched p_node)
    (hsub : node.subtree = some i) (hpsub : p_node.subtree = some i) :
    backup_tree hasTree paddTree st node chunk =
      Except.ok
        { st with
            tree := Tree.add st.tree node
            summary :=
              { st.summary with
                  dirs_unmodified := st.summary.dirs_unmodified + 1
                  total_dirs_processed := st.summary.total_dirs_processed + 1
                  total_dirsize_processed :=
                    st.summary.total_dirsize_processed + chunk.length } } := by
  simp [backup_tree, hsub, hp, hpsub, add_dir]

/-- Witness for the amended claim C4 at a concrete unchanged directory. -/
theorem backup_tree_unchanged_dir_witness :
    backup_tree (fun _ => true) (fun _ _ => Except.ok 1) stD nodeD [7, 7, 7] =
      Except.ok
        { stD with
            tree := Tree.add stD.tree nodeD
            summary :=
              { stD.summary with
                  dirs_unmodified := stD.summary.dirs_unmodified + 1
                  total_dirs_processed := stD.summary.total_dirs_processed + 1
                  total_dirsize_processed :=
                    stD.summary.total_dirsize_processed + 3 } } :=
  backup_tree_unchanged_dir (fun _ => true) (fun _ _ => Except.ok 1) stD nodeD
    [7, 7, 7] pnodeD 5 rfl rfl rfl

theorem backup_tree_pack_stack (hasTree : Id → Bool)
    (paddTree : Chunk → Id → Except Err Nat) (st : ArchSt) (node : Node)
    (id : Id) (chunk : Chunk) (dirsize : Nat) (st2 : ArchSt)
    (h : backup_tree_pack hasTree paddTree st node id chunk dirsize =
      Except.ok st2) : st2.stack = st.stack := by
  unfold backup_tree_pack at h
  split at h
  · split at h
    · simp at h
    · simp only [Except.ok.injEq] at h
      subst h
      simp only [add_dir]
      split <;> rfl
  · simp only [Except.ok.injEq] at h
    subst h
    simp [add_dir]

theorem backup_tree_stack (hasTree : Id → Bool)
    (paddTree : Chunk → Id → Except Err Nat) (st : ArchSt) (node : Node)
    (chunk : Chunk) (st2 : ArchSt)
    (h : backup_tree hasTree paddTree st node chunk = Except.ok st2) :
    st2.stack = st.stack := by
  unfold backup_tree at h
  split at h
  · simp at h
  · split at h
    · split at h
      · simp only [Except.ok.injEq] at h
        subst h
        simp [add_dir]
      · dsimp only at h
        have h2 := backup_tree_pack_stack _ _ _ _ _ _ _ _ h
        exact h2
    · dsimp only at h
      have h2 := backup_tree_pack_stack _ _ _ _ _ _ _ _ h
      exact h2
    · dsimp only at h
      have h2 := backup_tree_pack_stack _ _ _ _ _ _ _ _ h
      exact h2

theorem finish_trees_spec_aux (serializeFn : Tree → Chunk × Id)
    (hasTree : Id → Bool) (paddTree : Chunk → Id → Except Err Nat)
    (base : List String) (n : Nat) :
    ∀ (path : List String) (st : ArchSt), path.length ≤ n →
      (∀ path1 st1,
          finish_trees serializeFn hasTree paddTree base path st =
            Except.ok (path1, st1) →
          path1.isPrefixOf base = true ∧ path1 <+: path ∧
          st.stack.length = st1.stack.length + (path.length - path1.length)) ∧
      (¬ path.isPrefixOf base = true → st.stack = [] →
        finish_trees serializeFn hasTree paddTree base path st =
          Except.error Err.stackEmpty) := by
  induction n with
  | zero =>
    intro path st hle
    have hpath : path = [] := List.length_eq_zero.mp (Nat.le_zero.mp hle)
    subst hpath
    have hpre : List.isPrefixOf ([] : List String) base = true := by
      simp [List.isPrefixOf]
    constructor
    · intro path1 st1 h
      rw [finish_trees, dif_pos hpre] at h
      simp only [Except.ok.injEq, Prod.mk.injEq] at h
      obtain ⟨h1, h2⟩ := h
      subst h1; subst h2
      exact ⟨hpre, List.prefix_refl _, by omega⟩
    · intro hnp _
      exact absurd hpre hnp
  | succ n ih =>
    intro path st hle
    by_cases hpre : path.isPrefixOf base
    · constructor
      · intro path1 st1 h
        rw [finish_trees, dif_pos hpre] at h
        simp only [Except.ok.injEq, Prod.mk.injEq] at h
        obtain ⟨h1, h2⟩ := h
        subst h1; subst h2
        exact ⟨hpre, List.prefix_refl _, by omega⟩
      · intro hnp _
        exact absurd hpre hnp
    · have hne : path ≠ [] := by
        intro hh
        subst hh
        exact hpre (by simp [List.isPrefixOf])
      constructor
      · intro path1 st1 h
        rw [finish_trees, dif_neg hpre] at h
        cases hstack : st.stack with
        | nil =>
          rw [hstack] at h
          simp at h
        | cons frame rest =>
          obtain ⟨node, tree, parent⟩ := frame
          rw [hstack] at h
          dsimp only at h
          cases hbt : backup_tree hasTree paddTree
              { st with tree := tree, parent := parent, stack := rest }
              (node.set_subtree (serializeFn st.tree).2) (serializeFn st.tree).1 with
          | error e =>
            rw [hbt] at h
            simp at h
          | ok st2 =>
            rw [hbt] at h
            have hlen : path.dropLast.length ≤ n := by
              have h1 := List.length_dropLast path
              have h2 : 1 ≤ path.length := by
                cases path with
                | nil => exact absurd rfl hne
                | cons a l => simp
              omega
            obtain ⟨h1, h2, h3⟩ := (ih path.dropLast st2 hlen).1 path1 st1 h
            have hst2 : st2.stack = rest :=
              backup_tree_stack _ _ _ _ _ _ hbt
            have hp1le : path1.length ≤ path.dropLast.length := h2.length_le
            have hdl := List.length_dropLast path
            have h1le : 1 ≤ path.length := by
              cases path with
              | nil => exact absurd rfl hne
              | cons a l => simp
            rw [hst2] at h3
            refine ⟨h1, h2.trans (List.dropLast_prefix path), ?_⟩
            simp only [List.length_cons]
            omega
      · intro _ hstack
        rw [finish_trees, dif_neg hpre, hstack]

/-- Claim C6: finish_trees(base) unwinds one stack frame per dropped path
component — when it returns Ok the final path is a prefix of base and a
prefix of the starting path, and exactly one frame was popped per dropped
component — and when the stack is empty while the path is still not a prefix
of base it returns the stackEmpty error (the source's anyhow invariant
error) instead of panicking. -/
theorem finish_trees_unwind_spec (serializeFn : Tree → Chunk × Id)
    (hasTree : Id → Bool) (paddTree : Chunk → Id → Except Err Nat)
    (base path : List String) (st : ArchSt) :
    (∀ path1 st1,
        finish_trees serializeFn hasTree paddTree base path st =
          Except.ok (path1, st1) →
        path1.isPrefixOf base = true ∧ path1 <+: path ∧
        st.stack.length = st1.stack.length + (path.length - path1.length)) ∧
    (¬ path.isPrefixOf base = true → st.stack = [] →
      finish_trees serializeFn hasTree paddTree base path st =
        Except.error Err.stackEmpty) :=
  finish_trees_spec_aux serializeFn hasTree paddTree base path.length path st
    (Nat.le_refl _)

/-- Witness for claim C6: a one-component path over an empty stack cannot
unwind to the root and errors out; the empty path is already a prefix. -/
theorem finish_trees_unwind_spec_witness :
    finish_trees (fun _ => ([], 0)) (fun _ => true) (fun _ _ => Except.ok 1)
        [] ["home"] ArchSt.init = Except.error Err.stackEmpty :=
  (finish_trees_unwind_spec (fun _ => ([], 0)) (fun _ => true)
      (fun _ _ => Except.ok 1) [] ["home"] ArchSt.init).2 (by decide) rfl

theorem addedInv_add_file (st : ArchSt) (node : Node) (size : Nat)
    (h : addedInv st.summary) : addedInv (add_file st node size).summary := by
  unfold addedInv add_file at *
  cases hm : is_parent st.parent node <;> simp_all

theorem addedInv_add_dir (st : ArchSt) (node : Node) (size : Nat)
    (h : addedInv st.summary) : addedInv (add_dir st node size).summary := by
  unfold addedInv add_dir at *
  simp_all

theorem addedInv_process_data_junk (hasData : Id → Bool)
    (padd : Chunk → Id → Except Err Nat) (st : ArchSt) (id : Id) (chunk : Chunk)
    (size : Nat) (st1 : ArchSt)
    (h : process_data_junk hasData padd st id chunk size = Except.ok st1)
    (hinv : addedInv st.summary) : addedInv st1.summary := by
  unfold process_data_junk at h
  unfold addedInv at *
  split at h
  · split at h
    · simp at h
    · simp only [Except.ok.injEq] at h
      subst h
      split <;> simp_all <;> omega
  · simp only [Except.ok.injEq] at h
    subst h
    simp_all

theorem addedInv_backup_tree_pack (hasTree : Id → Bool)
    (paddTree : Chunk → Id → Except Err Nat) (st : ArchSt) (node : Node)
    (id : Id) (chunk : Chunk) (dirsize : Nat) (st1 : ArchSt)
    (h : backup_tree_pack hasTree paddTree st node id chunk dirsize =
      Except.ok st1)
    (hinv : addedInv st.summary) : addedInv st1.summary := by
  unfold backup_tree_pack at h
  split at h
  · split at h
    · simp at h
    · simp only [Except.ok.injEq] at h
      subst h
      refine addedInv_add_dir _ _ _ ?_
      unfold addedInv at *
      split <;> simp_all <;> omega
  · simp only [Except.ok.injEq] at h
    subst h
    exact addedInv_add_dir _ _ _ hinv

theorem addedInv_backup_tree (hasTree : Id → Bool)
    (paddTree : Chunk → Id → Except Err Nat) (st : ArchSt) (node : Node)
    (chunk : Chunk) (st1 : ArchSt)
    (h : backup_tree hasTree paddTree st node chunk = Except.ok st1)
    (hinv : addedInv st.summary) : addedInv st1.summary := by
  unfold backup_tree at h
  split at h
  · simp at h
  · split at h
    · split at h
      · simp only [Except.ok.injEq] at h
        subst h
        have h2 : addedInv (add_dir st node chunk.length).summary :=
          addedInv_add_dir _ _ _ hinv
        unfold addedInv at *
        simp_all
      · dsimp only at h
        refine addedInv_backup_tree_pack _ _ _ _ _ _ _ _ h ?_
        unfold addedInv at *
        simp_all
    · dsimp only at h
      refine addedInv_backup_tree_pack _ _ _ _ _ _ _ _ h ?_
      unfold addedInv at *
      simp_all
    · dsimp only at h
      refine addedInv_backup_tree_pack _ _ _ _ _ _ _ _ h ?_
      unfold addedInv at *
      simp_all

theorem addedInv_backup_reader_go (hashFn : Chunk → Id) (hasData : Id → Bool)
    (padd : Chunk → Id → Except Err Nat) (chunks : List (Except Err Chunk)) :
    ∀ (st : ArchSt) (content : List Id) (filesize : Nat) st1 content1 fs1,
      backup_reader_go hashFn hasData padd chunks st content filesize =
        Except.ok (st1, content1, fs1) →
      addedInv st.summary → addedInv st1.summary := by
  induction chunks with
  | nil =>
    intro st content filesize st1 content1 fs1 h hinv
    unfold backup_reader_go at h
    simp only [Except.ok.injEq, Prod.mk.injEq] at h
    obtain ⟨h1, -, -⟩ := h
    subst h1
    exact hinv
  | cons c rest ih =>
    intro st content filesize st1 content1 fs1 h hinv
    unfold backup_reader_go at h
    cases c with
    | error e => simp at h
    | ok chunk =>
      dsimp only at h
      cases hj : process_data_junk hasData padd st (hashFn chunk) chunk
          chunk.length with
      | error e => rw [hj] at h; simp at h
      | ok stj =>
        rw [hj] at h
        exact ih stj _ _ _ _ _ h
          (addedInv_process_data_junk _ _ _ _ _ _ _ hj hinv)

theorem addedInv_backup_reader (hashFn : Chunk → Id) (hasData : Id → Bool)
    (padd : Chunk → Id → Except Err Nat) (st : ArchSt)
    (chunks : List (Except Err Chunk)) (node : Node) (st1 : ArchSt)
    (h : backup_reader hashFn hasData padd st chunks node = Except.ok st1)
    (hinv : addedInv st.summary) : addedInv st1.summary := by
  unfold backup_reader at h
  cases hg : backup_reader_go hashFn hasData padd chunks st [] 0 with
  | error e => rw [hg] at h; simp at h
  | ok r =>
    rw [hg] at h
    obtain ⟨stg, content, fs⟩ := r
    simp only [Except.ok.injEq] at h
    subst h
    exact addedInv_add_file _ _ _
      (addedInv_backup_reader_go _ _ _ _ _ _ _ _ _ _ hg hinv)

theorem addedInv_backup_file (hashFn : Chunk → Id) (hasData : Id → Bool)
    (padd : Chunk → Id → Except Err Nat)
    (openResult : Except Err (List (Except Err Chunk)))
    (st : ArchSt) (node : Node) (st1 : ArchSt)
    (h : backup_file hashFn hasData padd openResult st node = Except.ok st1)
    (hinv : addedInv st.summary) : addedInv st1.summary := by
  unfold backup_file at h
  split at h
  · split at h
    · simp only [Except.ok.injEq] at h
      subst h
      exact addedInv_add_file _ _ _ hinv
    · split at h
      · simp at h
      · exact addedInv_backup_reader _ _ _ _ _ _ _ h hinv
  · split at h
    · simp at h
    · exact addedInv_backup_reader _ _ _ _ _ _ _ h hinv

theorem addedInv_finish_trees_aux (serializeFn : Tree → Chunk × Id)
    (hasTree : Id → Bool) (paddTree : Chunk → Id → Except Err Nat)
    (base : List String) (n : Nat) :
    ∀ (path : List String) (st : ArchSt) path1 st1, path.length ≤ n →
      finish_trees serializeFn hasTree paddTree base path st =
        Except.ok (path1, st1) →
      addedInv st.summary → addedInv st1.summary := by
  induction n with
  | zero =>
    intro path st path1 st1 hle h hinv
    have hpath : path = [] := List.length_eq_zero.mp (Nat.le_zero.mp hle)
    subst hpath
    rw [finish_trees, dif_pos (by simp [List.isPrefixOf])] at h
    simp only [Except.ok.injEq, Prod.mk.injEq] at h
    obtain ⟨-, h2⟩ := h
    subst h2
    exact hinv
  | succ n ih =>
    intro path st path1 st1 hle h hinv
    by_cases hpre : path.isPrefixOf base
    · rw [finish_trees, dif_pos hpre] at h
      simp only [Except.ok.injEq, Prod.mk.injEq] at h
      obtain ⟨-, h2⟩ := h
      subst h2
      exact hinv
    · have hne : path ≠ [] := by
        intro hh
        subst hh
        exact hpre (by simp [List.isPrefixOf])
      rw [finish_trees, dif_neg hpre] at h
      cases hstack : st.stack with
      | nil => rw [hstack] at h; simp at h
      | cons frame rest =>
        obtain ⟨node, tree, parent⟩ := frame
        rw [hstack] at h
        dsimp only at h
        cases hbt : backup_tree hasTree paddTree
            { st with tree := tree, parent := parent, stack := rest }
            (node.set_subtree (serializeFn st.tree).2) (serializeFn st.tree).1 with
        | error e => rw [hbt] at h; simp at h
        | ok st2 =>
          rw [hbt] at h
          have hlen : path.dropLast.length ≤ n := by
            have h1 := List.length_dropLast path
            have h2 : 1 ≤ path.length := by
              cases path with
              | nil => exact absurd rfl hne
              | cons a l => simp
            omega
          exact ih path.dropLast st2 path1 st1 hlen h
            (addedInv_backup_tree _ _ _ _ _ _ hbt hinv)

theorem addedInv_finalize_root_tree (serializeFn : Tree → Chunk × Id)
    (hasTree : Id → Bool) (paddTree : Chunk → Id → Except Err Nat)
    (st : ArchSt) (r : ArchSt × Id)
    (h : finalize_root_tree serializeFn hasTree paddTree st = Except.ok r) :
    r.1.summary = st.summary := by
  unfold finalize_root_tree at h
  dsimp only at h
  split at h
  · split at h
    · simp at h
    · simp only [Except.ok.injEq] at h
      subst h
      rfl
  · simp only [Except.ok.injEq] at h
    subst h
    rfl

theorem addedInv_apply (op : ArchOp) (st st1 : ArchSt)
    (h : op.apply st = Except.ok st1) (hinv : addedInv st.summary) :
    addedInv st1.summary := by
  cases op with
  | fileAdd node size =>
    simp only [ArchOp.apply, Except.ok.injEq] at h
    subst h
    exact addedInv_add_file _ _ _ hinv
  | dirAdd node size =>
    simp only [ArchOp.apply, Except.ok.injEq] at h
    subst h
    exact addedInv_add_dir _ _ _ hinv
  | junk hasData padd id chunk size =>
    exact addedInv_process_data_junk _ _ _ _ _ _ _ h hinv
  | treeBk hasTree paddTree node chunk =>
    exact addedInv_backup_tree _ _ _ _ _ _ h hinv
  | readerBk hashFn hasData padd chunks node =>
    exact addedInv_backup_reader _ _ _ _ _ _ _ h hinv
  | fileBk hashFn hasData padd openResult node =>
    exact addedInv_backup_file _ _ _ _ _ _ _ h hinv
  | finishT serializeFn hasTree paddTree base path =>
    simp only [ArchOp.apply] at h
    cases hf : finish_trees serializeFn hasTree paddTree base path st with
    | error e => rw [hf] at h; simp at h
    | ok pst =>
      rw [hf] at h
      simp only [Except.ok.injEq] at h
      subst h
      obtain ⟨path1, st1⟩ := pst
      exact addedInv_finish_trees_aux serializeFn hasTree paddTree base
        path.length path st path1 st1 (Nat.le_refl _) hf hinv
  | rootFin serializeFn hasTree paddTree =>
    simp only [ArchOp.apply] at h
    cases hf : finalize_root_tree serializeFn hasTree paddTree st with
    | error e => rw [hf] at h; simp at h
    | ok r =>
      rw [hf] at h
      simp only [Except.ok.injEq] at h
      subst h
      rw [addedInv_finalize_root_tree _ _ _ _ _ hf]
      exact hinv

/-- Claim C9: over every successful sequence of archiver operations the
summary keeps data_added split exactly into data_added_files plus
data_added_trees (and the packed counters likewise) — the per-file and
per-tree components are only ever credited together with the corresponding
total — starting from the all-zero summary of a fresh archiver; and the root
tree submitted inside finalize_snapshot leaves the whole summary untouched. -/
theorem archiver_added_counters_invariant :
    (∀ (ops : List ArchOp) (st st1 : ArchSt),
        runOps ops st = Except.ok st1 →
        addedInv st.summary → addedInv st1.summary) ∧
      addedInv ArchSt.init.summary ∧
      (∀ (serializeFn : Tree → Chunk × Id) (hasTree : Id → Bool)
          (paddTree : Chunk → Id → Except Err Nat) (st : ArchSt) (r : ArchSt × Id),
        finalize_root_tree serializeFn hasTree paddTree st = Except.ok r →
        r.1.summary = st.summary) := by
  refine ⟨?_, by decide, addedInv_finalize_root_tree⟩
  intro ops
  induction ops with
  | nil =>
    intro st st1 h hinv
    unfold runOps at h
    simp only [Except.ok.injEq] at h
    subst h
    exact hinv
  | cons op rest ih =>
    intro st st1 h hinv
    unfold runOps at h
    cases ha : op.apply st with
    | error e => rw [ha] at h; simp at h
    | ok st2 =>
      rw [ha] at h
      exact ih st2 st1 h (addedInv_apply _ _ _ ha hinv)

/-- Witness for claim C9: a one-operation run from the fresh state keeps the
invariant. -/
theorem archiver_added_counters_invariant_witness :
    addedInv (add_file ArchSt.init nodeA 6).summary :=
  archiver_added_counters_invariant.1 [ArchOp.fileAdd nodeA 6] ArchSt.init
    (add_file ArchSt.init nodeA 6) rfl (by decide)

/-- Counterexample to claim C2 as stated: with backup_start one second after
the end time (clock skew), finalize_snapshot does not succeed with a zero
duration — the to_std conversion fails and the whole call errors, although
every collaborator succeeds. -/
theorem finalize_snapshot_negative_duration_cex :
    finalize_snapshot (fun _ => ([], 9)) (fun _ => true) (fun _ _ => Except.ok 1)
        (Except.ok ()) (Except.ok ()) (Except.ok ()) (fun _ => Except.ok 42) 0 []
        { ArchSt.init with summary := { backup_start := 1 } } {} =
      Except.error Err.outOfRange := by
  unfold finalize_snapshot
  rw [finish_trees]
  rfl

/-- Claim C2 as amended: finalize_snapshot computes backup_duration as
end_time - backup_start and total_duration as end_time - snap.time, but when
either difference is negative it fails with the out-of-range conversion
error instead of reporting zero; with both differences nonnegative it
proceeds to save the manifest carrying exactly those durations. -/
theorem finalize_snapshot_durations (serializeFn : Tree → Chunk × Id)
    (hasTree : Id → Bool) (paddTree : Chunk → Id → Except Err Nat)
    (saveFile : Snapshot → Except Err Id) (endTime : Int) (st : ArchSt)
    (snap : Snapshot)
    (hroot : hasTree (serializeFn st.tree).2 = true) :
    ((endTime - st.summary.backup_start < 0 ∨ endTime - snap.time < 0) →
      finalize_snapshot serializeFn hasTree paddTree (Except.ok ())
          (Except.ok ()) (Except.ok ()) saveFile endTime [] st snap =
        Except.error Err.outOfRange) ∧
    (0 ≤ endTime - st.summary.backup_start → 0 ≤ endTime - snap.time →
      finalize_snapshot serializeFn hasTree paddTree (Except.ok ())
          (Except.ok ()) (Except.ok ()) saveFile endTime [] st snap =
        (saveFile
            { snap with
                tree := (serializeFn st.tree).2
                summary := some
                  { st.summary with
                      backup_duration := (endTime - st.summary.backup_start).toNat
                      total_duration := (endTime - snap.time).toNat
                      backup_end := endTime } }).map
          (fun sid =>
            { snap with
                tree := (serializeFn st.tree).2
                summary := some
                  { st.summary with
                      backup_duration := (endTime - st.summary.backup_start).toNat
                      total_duration := (endTime - snap.time).toNat
                      backup_end := endTime }
                id := sid })) := by
  constructor
  · intro hneg
    unfold finalize_snapshot
    rw [finish_trees,
      dif_pos (show (List.isPrefixOf (α := String) [] []) = true from rfl)]
    dsimp only
    simp only [finalize_root_tree, hroot, Bool.not_true, Bool.false_eq_true,
      if_false, durationToStd]
    by_cases h1 : endTime - st.summary.backup_start < 0
    · rw [if_pos h1]
    · have h2 : endTime - snap.time < 0 := by
        rcases hneg with h | h
        · exact absurd h h1
        · exact h
      rw [if_neg h1]
      dsimp only
      rw [if_pos h2]
  · intro h1 h2
    unfold finalize_snapshot
    rw [finish_trees,
      dif_pos (show (List.isPrefixOf (α := String) [] []) = true from rfl)]
    dsimp only
    simp only [finalize_root_tree, hroot, Bool.not_true, Bool.false_eq_true,
      if_false, durationToStd]
    rw [if_neg (not_lt.2 h1)]
    dsimp only
    rw [if_neg (not_lt.2 h2)]
    dsimp only
    cases hs : saveFile
        { snap with
            tree := (serializeFn st.tree).2
            summary := some
              { st.summary with
                  backup_duration := (endTime - st.summary.backup_start).toNat
                  total_duration := (endTime - snap.time).toNat
                  backup_end := endTime } } with
    | error e => rfl
    | ok sid => rfl

/-- Witness for the amended claim C2: a run whose clock moved forward by ten
seconds saves a manifest carrying both durations. -/
theorem finalize_snapshot_durations_witness :
    finalize_snapshot (fun _ => ([], 9)) (fun _ => true) (fun _ _ => Except.ok 1)
        (Except.ok ()) (Except.ok ()) (Except.ok ()) (fun _ => Except.ok 42) 10 []
        ArchSt.init {} =
      (((fun _ => Except.ok 42) : Snapshot → Except Err Id)
          { ({} : Snapshot) with
              tree := 9
              summary := some
                { ArchSt.init.summary with
                    backup_duration := ((10 : Int) - 0).toNat
                    total_duration := ((10 : Int) - 0).toNat
                    backup_end := 10 } }).map
        (fun sid =>
          { ({} : Snapshot) with
              tree := 9
              summary := some
                { ArchSt.init.summary with
                    backup_duration := ((10 : Int) - 0).toNat
                    total_duration := ((10 : Int) - 0).toNat
                    backup_end := 10 }
              id := sid }) :=
  (finalize_snapshot_durations (fun _ => ([], 9)) (fun _ => true)
      (fun _ _ => Except.ok 1) (fun _ => Except.ok 42) 10 ArchSt.init {} rfl).2
    (by decide) (by decide)

/-- Counterexample to claim C1 as stated: the run's single entry fails with
the packer error while it is processed (the data packer's add fails), yet the
backup command run is not aborted — it still writes and returns a snapshot
manifest. -/
theorem backup_packer_add_error_not_fatal_cex :
    c1_entry ArchSt.init = Except.error Err.packer ∧
      execute_backup [c1_entry] c1_finalize ArchSt.init =
        Except.ok
          { time := 0, tree := 9,
            summary := some
              { ArchSt.init.summary with
                  backup_duration := 10, total_duration := 10, backup_end := 10 },
            id := 42 } := by
  constructor
  · rfl
  · show c1_finalize (backup_source_loop [c1_entry] ArchSt.init) = _
    have hloop : backup_source_loop [c1_entry] ArchSt.init = ArchSt.init := rfl
    rw [hloop]
    unfold c1_finalize finalize_snapshot
    rw [finish_trees]
    rfl

/-- Claim C1 as amended: a packer add failure while an entry is processed
surfaces as an error from backup_file (and hence from add_entry), but the
backup command logs and ignores per-entry errors and keeps going; the run's
outcome is exactly finalize_snapshot's — the manifest is written whenever
finalize succeeds and only a finalize failure aborts without a manifest. -/
theorem backup_packer_add_error_not_fatal (hashFn : Chunk → Id)
    (hasData : Id → Bool) (st : ArchSt) (node : Node) (chunk : Chunk)
    (rest : List (Except Err Chunk)) :
    (is_parent st.parent node = ParentResult.NotFound →
      hasData (hashFn chunk) = false →
      backup_file hashFn hasData paddFail
          (Except.ok (Except.ok chunk :: rest)) st node =
        Except.error Err.packer) ∧
    (∀ (entries : List (ArchSt → Except Err ArchSt))
        (finalize : ArchSt → Except Err Snapshot) (st1 : ArchSt) (snap : Snapshot),
      finalize (backup_source_loop entries st1) = Except.ok snap →
      execute_backup entries finalize st1 = Except.ok snap) ∧
    (∀ (entries : List (ArchSt → Except Err ArchSt))
        (finalize : ArchSt → Except Err Snapshot) (st1 : ArchSt) (e : Err),
      finalize (backup_source_loop entries st1) = Except.error e →
      execute_backup entries finalize st1 = Except.error e) := by
  refine ⟨?_, ?_, ?_⟩
  · intro hp hd
    simp only [backup_file, hp]
    simp [backup_reader, backup_reader_go, process_data_junk, hd, paddFail]
  · intro entries finalize st1 snap h
    exact h
  · intro entries finalize st1 e h
    exact h

/-- Witness for the amended claim C1 at the concrete failing entry, and an
empty run whose finalize succeeds. -/
theorem backup_packer_add_error_not_fatal_witness :
    backup_file (fun c => c.length) (fun _ => false) paddFail
        (Except.ok [Except.ok [1, 2, 3]]) ArchSt.init nodeA =
      Except.error Err.packer ∧
    execute_backup [] (fun _ => Except.ok ({} : Snapshot)) ArchSt.init =
      Except.ok ({} : Snapshot) :=
  ⟨(backup_packer_add_error_not_fatal (fun c => c.length) (fun _ => false)
        ArchSt.init nodeA [1, 2, 3] []).1 rfl rfl,
    (backup_packer_add_error_not_fatal (fun c => c.length) (fun _ => false)
        ArchSt.init nodeA [1, 2, 3] []).2.1 [] _ ArchSt.init {} rfl⟩

/-- Claim C7: the REST backend classifies a 4xx response as a permanent
error — retry_notify returns it at once, whatever backoff budget is left —
while every other error response (the 5xx range that error_for_status also
rejects) is transient and consumes a backoff interval and retries; the
backoff installed by RestBackend::new defaults to a maximum elapsed time of
600 seconds. -/
theorem rest_backend_error_classification :
    (∀ status, is_client_error status = true →
        check_error status = Except.error (RetryErr.permanent status)) ∧
    (∀ status, is_client_error status = false → is_server_error status = true →
        check_error status = Except.error (RetryErr.transient status)) ∧
    (∀ status, is_client_error status = false → is_server_error status = false →
        check_error status = Except.ok status) ∧
    (∀ (α : Type) (op : Nat → Except RetryErr α) (attempt : Nat)
        (waits : List Nat) (e : Nat),
      op attempt = Except.error (RetryErr.permanent e) →
      retry_notify op attempt waits = Except.error e) ∧
    (∀ (α : Type) (op : Nat → Except RetryErr α) (attempt w : Nat)
        (rest : List Nat) (e : Nat),
      op attempt = Except.error (RetryErr.transient e) →
      retry_notify op attempt (w :: rest) = retry_notify op (attempt + 1) rest) ∧
    rest_backend_default_max_elapsed_secs = 600 := by
  refine ⟨?_, ?_, ?_, ?_, ?_, rfl⟩
  · intro status h
    simp [check_error, error_for_status, h]
  · intro status h1 h2
    simp [check_error, error_for_status, h1, h2]
  · intro status h1 h2
    simp [check_error, error_for_status, h1, h2]
  · intro α op attempt waits e h
    rw [retry_notify, h]
  · intro α op attempt w rest e h
    rw [retry_notify, h]

/-- Witness for claim C7 at concrete statuses 404, 503 and 200 with a
two-interval backoff budget. -/
theorem rest_backend_error_classification_witness :
    check_error 404 = Except.error (RetryErr.permanent 404) ∧
      check_error 503 = Except.error (RetryErr.transient 503) ∧
      check_error 200 = Except.ok 200 ∧
      retry_notify (fun _ => (Except.error (RetryErr.permanent 404) : Except RetryErr Nat))
          0 [1, 2] = Except.error 404 ∧
      retry_notify (fun _ => (Except.error (RetryErr.transient 503) : Except RetryErr Nat))
          0 [1, 2] =
        retry_notify (fun _ => (Except.error (RetryErr.transient 503) : Except RetryErr Nat))
          1 [2] :=
  ⟨rest_backend_error_classification.1 404 rfl,
    rest_backend_error_classification.2.1 503 rfl rfl,
    rest_backend_error_classification.2.2.1 200 rfl rfl,
    rest_backend_error_classification.2.2.2.1 Nat _ 0 [1, 2] 404 rfl,
    rest_backend_error_classification.2.2.2.2.1 Nat _ 0 1 [2] 503 rfl⟩

theorem idToHexChars_length (id : List Nat) :
    (idToHexChars id).length = 2 * id.length := by
  induction id with
  | nil => rfl
  | cons b rest ih =>
    simp only [idToHexChars, List.flatMap_cons, List.length_append,
      List.length_cons] at *
    simp [byteHex, ih]
    omega

theorem hexDigit_mem_of_lt : ∀ n < 16, hexDigit n ∈ hexDigitChars := by decide

theorem hexDigit_inj_of_lt :
    ∀ m < 16, ∀ n < 16, hexDigit m = hexDigit n → m = n := by decide

theorem byteHex_inj_of_lt (a : Nat) (ha : a < 256) (b : Nat) (hb : b < 256)
    (h : byteHex a = byteHex b) : a = b := by
  simp only [byteHex, List.cons.injEq, and_true] at h
  obtain ⟨h1, h2⟩ := h
  have e1 := hexDigit_inj_of_lt (a / 16) (by omega) (b / 16) (by omega) h1
  have e2 := hexDigit_inj_of_lt (a % 16) (by omega) (b % 16) (by omega) h2
  omega

theorem idToHexChars_take_two (b : Nat) (rest : List Nat) :
    (idToHexChars (b :: rest)).take 2 = byteHex b := by
  simp [idToHexChars, byteHex, List.take]

/-- Claim C8: a Pack object's backend path is data/(first two hex chars of
its id)/(full hex id) — the hex rendering of a 32-byte id being 64 lowercase
hex characters — and create() prepares one directory per file type together
with all 256 distinct two-hex-character shard directories under data,
including the shard of every pack path. -/
theorem local_backend_pack_layout (base : List String) (id : List Nat)
    (hlen : id.length = 32) (hbytes : ∀ b ∈ id, b < 256) :
    (idToHexChars id).length = 64 ∧
      (∀ c ∈ idToHexChars id, c ∈ hexDigitChars) ∧
      localBackendPath base FileType.pack id =
        base ++
          ["data", String.mk ((idToHexChars id).take 2), String.mk (idToHexChars id)] ∧
      base ++ ["data", String.mk ((idToHexChars id).take 2)] ∈
        localBackendCreate base ∧
      (∀ tpe : FileType, base ++ [tpe.name] ∈ localBackendCreate base) ∧
      ((List.range 256).map (fun i => String.mk (byteHex i))).Nodup ∧
      ((List.range 256).map (fun i => String.mk (byteHex i))).length = 256 := by
  refine ⟨?_, ?_, rfl, ?_, ?_, ?_, by simp⟩
  · rw [idToHexChars_length, hlen]
  · intro c hc
    obtain ⟨b, hb, hcb⟩ := List.mem_flatMap.mp hc
    have hblt : b < 256 := hbytes b hb
    simp only [byteHex, List.mem_cons, List.not_mem_nil, or_false] at hcb
    rcases hcb with rfl | rfl
    · exact hexDigit_mem_of_lt _ (by omega)
    · exact hexDigit_mem_of_lt _ (by omega)
  · cases id with
    | nil => simp at hlen
    | cons b rest =>
      rw [idToHexChars_take_two]
      have hblt : b < 256 := hbytes b (List.mem_cons_self b rest)
      unfold localBackendCreate
      refine List.mem_append_right _ ?_
      exact List.mem_map.mpr ⟨b, List.mem_range.mpr hblt, rfl⟩
  · intro tpe
    cases tpe <;>
      simp [localBackendCreate, ALL_FILE_TYPES, FileType.name]
  · refine List.Nodup.map_on ?_ (List.nodup_range 256)
    intro x hx y hy hxy
    simp only [List.mem_range] at hx hy
    have hdata : (String.mk (byteHex x)).data = (String.mk (byteHex y)).data := by
      rw [hxy]
    exact byteHex_inj_of_lt x hx y hy hdata

/-- Witness for claim C8 at the all-zero 32-byte id under base directory
repo. -/
theorem local_backend_pack_layout_witness :
    (idToHexChars (List.replicate 32 0)).length = 64 ∧
      (∀ c ∈ idToHexChars (List.replicate 32 0), c ∈ hexDigitChars) ∧
      localBackendPath ["repo"] FileType.pack (List.replicate 32 0) =
        ["repo"] ++
          ["data", String.mk ((idToHexChars (List.replicate 32 0)).take 2),
            String.mk (idToHexChars (List.replicate 32 0))] ∧
      ["repo"] ++ ["data", String.mk ((idToHexChars (List.replicate 32 0)).take 2)] ∈
        localBackendCreate ["repo"] ∧
      (∀ tpe : FileType, ["repo"] ++ [tpe.name] ∈ localBackendCreate ["repo"]) ∧
      ((List.range 256).map (fun i => String.mk (byteHex i))).Nodup ∧
      ((List.range 256).map (fun i => String.mk (byteHex i))).length = 256 :=
  local_backend_pack_layout ["repo"] (List.replicate 32 0) (by decide)
    (by decide)

end Rustic
